import Mathlib

/-!
# Strong Teams automation — verification of the core event tracker and
phase-processing state machine

Shallow embedding of the JavaScript (Google Apps Script) sources:

* `ProcessedEventsTracker` (event dedup ledger: fingerprinting,
  `isEventProcessed`, `markEventProcessed`, `findByEmail`,
  `cleanupOldRecords`),
* `BuildFileManager` (`processLeaderBuildFile`, `updatePhase1Settings`,
  `updateResponseLink`, `updatePhase2Settings`, `validatePhase1Success`),
* the orchestrator steps of `onCalendarTrigger`
  (`processPhase1Event` / `processPhase2Event` and the surrounding
  mark-as-processed protocol),
* `CalendarUtils.extractEventData` and its company-name derivation.

External collaborators (Drive, Sheets, Calendar, the IDS HTTP API, email)
are modelled by explicit state: the tracking sheet is a `List LedgerRow`
(header row excluded; sheet row number = list index + 2), a Drive folder
is a list of files, and the IDS API call outcome is passed in as an
`Except` value.  JavaScript `Date` objects are modelled as `Int` epoch
values; `Date.prototype.toISOString` is modelled by the injective
rendering `dateToISO`.  All machine arithmetic of the 32-bit fingerprint
hash is spelled out over `Int` with explicit wrap-around.
-/

namespace StrongTeams

/-- Model of a JavaScript `Date` value: an epoch instant.  `toISOString`
is modelled as an injective rendering of the instant. -/
def dateToISO (t : Int) : String := toString t

/-- A calendar event as the core reads it (`getId`, `getTitle`,
`getDescription`, `getLocation`, `getStartTime`, `getEndTime`).  A `null`
description/location is modelled by `""`, matching the sources'
`(event.getDescription() || '')` / `(event.getLocation() || '')` guards. -/
structure CalendarEvent where
  id : String
  title : String
  description : String
  location : String
  startTime : Int
  endTime : Int
deriving Repr, DecidableEq

/-! ## Fingerprinting (`ProcessedEventsTracker.generateFingerprint`) -/

/-- JavaScript `ToInt32`: reduce an integer into `[-2^31, 2^31)`,
as performed by the bitwise operators (`<<`, `&`). -/
def toInt32 (x : Int) : Int := (x + 2 ^ 31) % 2 ^ 32 - 2 ^ 31

/-- JavaScript `h << 5` on a 32-bit value: multiply by 32 and wrap. -/
def jsShl5 (h : Int) : Int := toInt32 (h * 32)

/-- One iteration of the hash loop:
`hash = ((hash << 5) - hash) + char; hash = hash & hash;`.
The subtraction and addition are exact (double precision suffices),
and `hash & hash` is `ToInt32`. -/
def hashStep (h : Int) (c : Char) : Int := toInt32 (jsShl5 h - h + c.toNat)

/-- The rolling hash over the characters of a string
(`charCodeAt` = the character's code point; the sources' strings are
effectively ASCII, where UTF-16 code units and code points agree). -/
def hashString (s : String) : Int := s.data.foldl hashStep 0

/-- JavaScript `Number.prototype.toString(16)` on a non-negative integer. -/
def toHex (n : Nat) : String := String.mk (Nat.toDigits 16 n)

/-- `ProcessedEventsTracker.generateFingerprint`: join start ISO, end ISO,
location and the first 100 characters of the description with `'|'`,
hash, take `Math.abs`, render in hex. -/
def generateFingerprint (e : CalendarEvent) : String :=
  let details := String.intercalate "|"
    [dateToISO e.startTime, dateToISO e.endTime, e.location,
     (e.description.take 100)]
  toHex (hashString details).natAbs

/-! ## The tracking sheet (`ProcessedEventsTracker`)

One `LedgerRow` per data row of the 'Processed Events' sheet, columns
A–K.  The header row is not part of the list, so list index `j`
corresponds to `data` index `j + 1` and to 1-based sheet row `j + 2`.
`eventDate`/`processedAt`/`lastUpdated` cells hold ISO strings in the
sheet; they are modelled by the instants they render
(`eventDate = none` models an empty or unparsable cell). -/

structure LedgerRow where
  eventId : String
  fingerprint : String
  phase : String
  leaderName : String
  company : String
  eventDate : Option Int
  processedAt : Int
  lastUpdated : Int
  email : String
  buildFileId : String
  leaderFolderId : String
deriving Repr, DecidableEq

/-- Result of `isEventProcessed`:
`{ processed: boolean, needsUpdate: boolean, rowIndex: number }`. -/
structure TrackingStatus where
  processed : Bool
  needsUpdate : Bool
  rowIndex : Int
deriving Repr, DecidableEq

/-- The search loop of `isEventProcessed`: scan `data` from index `i`
for the first row whose Event ID column equals `eventId`; on a hit,
compare the stored fingerprint and report sheet row `i + 1`. -/
def isEventProcessedAux (eventId fp : String) :
    List LedgerRow → Int → TrackingStatus
  | [], _ => ⟨false, false, -1⟩
  | r :: rs, i =>
    if r.eventId = eventId then
      if r.fingerprint = fp then ⟨true, false, i + 1⟩
      else ⟨false, true, i + 1⟩
    else isEventProcessedAux eventId fp rs (i + 1)

/-- `ProcessedEventsTracker.isEventProcessed`.  `enabled` is
`CONFIG.PROCESSED_EVENTS.enabled`; when it is off the tracker always
reports "new".  The sheet is given as its data rows (header stripped),
so the scan starts at `data` index 1. -/
def isEventProcessed (enabled : Bool) (rows : List LedgerRow)
    (e : CalendarEvent) : TrackingStatus :=
  if enabled then
    isEventProcessedAux e.id (generateFingerprint e) rows 1
  else ⟨false, false, -1⟩

/-- The `eventData` argument of `markEventProcessed`; the optional
`buildFileId` / `leaderFolderId` properties default to `''`
(`eventData.buildFileId || ''`). -/
structure MarkData where
  fullName : String
  companyName : String
  email : String
  buildFileId : String := ""
  leaderFolderId : String := ""
deriving Repr, DecidableEq

/-- The `rowData` array assembled by `markEventProcessed` (`now` is the
instant of the run's `new Date()` calls). -/
def buildRowData (e : CalendarEvent) (phase : String) (d : MarkData)
    (now : Int) : LedgerRow :=
  { eventId := e.id
    fingerprint := generateFingerprint e
    phase := phase
    leaderName := d.fullName
    company := d.companyName
    eventDate := some e.startTime
    processedAt := now
    lastUpdated := now
    email := d.email
    buildFileId := d.buildFileId
    leaderFolderId := d.leaderFolderId }

/-- `ProcessedEventsTracker.markEventProcessed`: overwrite sheet row
`existingRowIndex` in place when `existingRowIndex > 0`, else append.
Sheet row `n` is list index `n - 2` (header offset). -/
def markEventProcessed (enabled : Bool) (rows : List LedgerRow)
    (e : CalendarEvent) (phase : String) (d : MarkData) (now : Int)
    (existingRowIndex : Int) : List LedgerRow :=
  if enabled then
    if existingRowIndex > 0 then
      rows.set (existingRowIndex - 2).toNat (buildRowData e phase d now)
    else rows ++ [buildRowData e phase d now]
  else rows

/-! ## Email lookup (`ProcessedEventsTracker.findByEmail`) -/

/-- The record `findByEmail` builds for each matching row
(`rowIndex` is the 0-based `data` index `i`). -/
structure EmailMatch where
  rowIndex : Nat
  buildFileId : String
  leaderFolderId : String
  leaderName : String
  company : String
deriving Repr, DecidableEq

/-- JavaScript `\s` (the ASCII part, which is all the sources meet). -/
def isJsWs (c : Char) : Bool :=
  c = ' ' || c = '\t' || c = '\n' || c = Char.ofNat 13 ||
  c = Char.ofNat 12 || c = Char.ofNat 11

/-- `String.prototype.toLowerCase` (ASCII). -/
def jsToLower (s : String) : String := String.mk (s.data.map Char.toLower)

/-- `String.prototype.trim`: strip whitespace from both ends. -/
def jsTrim (s : String) : String :=
  String.mk (((s.data.dropWhile isJsWs).reverse.dropWhile isJsWs).reverse)

/-- `s.toLowerCase().trim()`. -/
def normalizeKey (s : String) : String := jsTrim (jsToLower s)

/-- STEP 1 of `findByEmail`: collect, in ledger order, every row whose
email column (lower-cased and trimmed) equals the normalized email and
whose Build File ID column is truthy (non-empty).  `i` is the `data`
index of the first row of the list. -/
def collectEmailMatches (normalizedEmail : String) :
    List LedgerRow → Nat → List EmailMatch
  | [], _ => []
  | r :: rs, i =>
    let rest := collectEmailMatches normalizedEmail rs (i + 1)
    if normalizeKey r.email = normalizedEmail ∧ r.buildFileId ≠ "" then
      { rowIndex := i
        buildFileId := r.buildFileId
        leaderFolderId := r.leaderFolderId
        leaderName := r.leaderName
        company := r.company } :: rest
    else rest

/-- `leaderName ? leaderName.toLowerCase().trim() : null` — a missing or
empty (falsy) hint becomes `none`. -/
def normalizedNameHint (leaderName : Option String) : Option String :=
  match leaderName with
  | none => none
  | some s => if s = "" then none else some (normalizeKey s)

/-- `ProcessedEventsTracker.findByEmail`.  Zero matches → `null`;
exactly one → it; several → narrow by the name hint: a unique name
match is returned, more than one name match returns the first *of the
filtered list* (`nameMatches[0]`), no name match — or no hint — returns
the first of the full match list (`matches[0]`). -/
def findByEmail (rows : List LedgerRow) (email : String)
    (leaderName : Option String) : Option EmailMatch :=
  if email = "" then none
  else
    let normalizedEmail := normalizeKey email
    let ms := collectEmailMatches normalizedEmail rows 1
    match ms with
    | [] => none
    | [m] => some m
    | m :: _ :: _ =>
      match normalizedNameHint leaderName with
      | some nn =>
        let nameMatches :=
          ms.filter (fun x => normalizeKey x.leaderName = nn)
        match nameMatches with
        | [n] => some n
        | n :: _ :: _ => some n
        | [] => some m
      | none => some m

/-! ## Retention pruning (`ProcessedEventsTracker.cleanupOldRecords`) -/

/-- The deletion test: the row's Event Date cell parses to an instant
strictly before the cutoff (`new Date() - retentionDays`).  An empty or
unparsable cell (`none`) is never deleted — the source skips falsy
cells, and an invalid date compares false. -/
def rowExpired (cutoff : Int) (r : LedgerRow) : Bool :=
  match r.eventDate with
  | some d => d < cutoff
  | none => false

/-- The deletion loop of `cleanupOldRecords`: walk the snapshot indices
downwards (`for (let i = data.length - 1; i >= 1; i--)`), deleting the
sheet row of each expired snapshot row.  `snapshot` is the `data` array
(minus header) read once at the start; `sheet` is the live sheet, from
which `deleteRow` removes by current position.  Because the walk is
top-down, index `j` of the live sheet still addresses snapshot row `j`
when it is visited. -/
def cleanupFrom (cutoff : Int) (snapshot : List LedgerRow) :
    Nat → List LedgerRow → Nat → List LedgerRow × Nat
  | 0, sheet, deleted => (sheet, deleted)
  | j + 1, sheet, deleted =>
    match snapshot[j]? with
    | some r =>
      if rowExpired cutoff r then
        cleanupFrom cutoff snapshot j (sheet.eraseIdx j) (deleted + 1)
      else
        cleanupFrom cutoff snapshot j sheet deleted
    | none => cleanupFrom cutoff snapshot j sheet deleted

/-- `ProcessedEventsTracker.cleanupOldRecords`: returns the surviving
rows and the `deletedCount` it logs. -/
def cleanupOldRecords (cutoff : Int) (rows : List LedgerRow) :
    List LedgerRow × Nat :=
  cleanupFrom cutoff rows rows.length rows 0

/-! ## Build Files (`BuildFileManager`)

A Build File spreadsheet is modelled by its named cells: the Phase 1
Settings column-B cells (rows 2/3/7/9 for date/time/name/zoom, row 4 for
the full response URL, row 8 for the IDS login code) and the Phase 2
Settings column-B cells (rows per `CONFIG.PHASE2.rows`, row 8 for the
copied login code).  `id` is the Drive file id, `name` the file name.
A fresh template copy has every data cell empty. -/

structure BuildFile where
  id : String
  name : String
  phase1Date : String := ""
  phase1Time : String := ""
  phase1Name : String := ""
  phase1Zoom : String := ""
  phase1FullUrl : String := ""
  phase1LoginCode : String := ""
  phase2Date : String := ""
  phase2Time : String := ""
  phase2Zoom : String := ""
  phase2LoginCode : String := ""
deriving Repr, DecidableEq

/-- The slice of `extractEventData`'s output consumed by the Build File
and phase-processing code. -/
structure EventData where
  fullName : String
  email : String
  companyName : String
  formattedDate : String
  formattedTime : String
  zoomLink : String
deriving Repr, DecidableEq

/-- Successful result of `IDSUtils.generateResponseLink`. -/
structure LinkResult where
  loginCode : String
  responseLink : String
deriving Repr, DecidableEq

/-- `FolderUtils.findFileInFolder`: first file of the folder with the
given name (`getFilesByName` + `hasNext`/`next`), else `null`. -/
def findFileInFolder (folder : List BuildFile) (fileName : String) :
    Option BuildFile :=
  folder.find? (fun f => f.name = fileName)

/-- Mutate the first file of a folder satisfying `p` in place (the Drive
file object returned by `findFileInFolder` aliases the folder entry). -/
def updateFirst (p : BuildFile → Bool) (g : BuildFile → BuildFile) :
    List BuildFile → List BuildFile
  | [] => []
  | f :: fs => if p f then g f :: fs else f :: updateFirst p g fs

/-- `BuildFileManager.updatePhase1Settings`: write date, time, leader
name and zoom link into Phase 1 Settings column B (rows 2, 3, 7, 9). -/
def updatePhase1Settings (f : BuildFile) (d : EventData) : BuildFile :=
  { f with
    phase1Date := d.formattedDate
    phase1Time := d.formattedTime
    phase1Name := d.fullName
    phase1Zoom := d.zoomLink }

/-- `BuildFileManager.copyLoginCodeToPhase2`: best-effort copy of the
login code into Phase 2 Settings B8 (the Phase 2 sheet is present in
this model, so the copy succeeds). -/
def copyLoginCodeToPhase2 (f : BuildFile) (loginCode : String) :
    BuildFile :=
  { f with phase2LoginCode := loginCode }

/-- `BuildFileManager.updateResponseLink` (v1.2.0): call the IDS API —
its outcome for this lead is the `api` argument — and, on success, store
the full URL (only when `CONFIG.IDS_API.storeFullUrlInRow4`), always
store the login code in Phase 1 row 8, and copy it to Phase 2 B8.
There is deliberately no `try`/`catch`: an API failure propagates. -/
def updateResponseLink (api : Except String LinkResult)
    (storeFullUrl : Bool) (f : BuildFile) : Except String BuildFile :=
  match api with
  | .error e => .error e
  | .ok result =>
    let f := if storeFullUrl then
        { f with phase1FullUrl := result.responseLink } else f
    let f := { f with phase1LoginCode := result.loginCode }
    .ok (copyLoginCodeToPhase2 f result.loginCode)

/-- `BuildFileManager.createNewBuildFile`: copy the template under the
leader-specific name.  The Drive-assigned id of the copy is the
`newId` argument. -/
def createNewBuildFile (newId fileName : String) : BuildFile :=
  { id := newId, name := fileName }

/-- Result of a Phase 1 Build File operation: the returned file, the
leader folder's contents afterwards, and how many IDS API calls the
operation made. -/
structure Phase1FileResult where
  file : BuildFile
  folder : List BuildFile
  apiCalls : Nat
deriving Repr, DecidableEq

/-- `BuildFileManager.processLeaderBuildFile`: if a Build File named
`"<fullName> - Strong Teams Build File"` already exists in the leader
folder, only `updatePhase1Settings` runs (no IDS call); otherwise the
template is copied, populated, and `updateResponseLink` runs once. -/
def processLeaderBuildFile (api : Except String LinkResult)
    (storeFullUrl : Bool) (newId : String) (d : EventData)
    (leaderFolder : List BuildFile) : Except String Phase1FileResult :=
  let buildFileName := d.fullName ++ " - Strong Teams Build File"
  match findFileInFolder leaderFolder buildFileName with
  | some f =>
    .ok { file := updatePhase1Settings f d
          folder := updateFirst (fun g => g.name = buildFileName)
            (fun g => updatePhase1Settings g d) leaderFolder
          apiCalls := 0 }
  | none =>
    let f := createNewBuildFile newId buildFileName
    let f := updatePhase1Settings f d
    match updateResponseLink api storeFullUrl f with
    | .error e => .error e
    | .ok f' =>
      .ok { file := f', folder := leaderFolder ++ [f'], apiCalls := 1 }

/-- `BuildFileManager.validatePhase1Success`: re-read the critical
Phase 1 cells and fail with the list of missing fields when any is
empty.  The source pushes the login code first, then date, time, name,
zoom.  (The sheet itself is present in this model.)  NOTE: this
function is defined in the source but never invoked by
`processPhase1Event` / `processLeaderBuildFile`. -/
def validatePhase1Success (f : BuildFile) : Except String Unit :=
  let missingFields :=
    (if f.phase1LoginCode = "" then ["IDS login code (Row 8)"] else []) ++
    (if f.phase1Date = "" then ["Phase 1 date (Row 2)"] else []) ++
    (if f.phase1Time = "" then ["Phase 1 time (Row 3)"] else []) ++
    (if f.phase1Name = "" then ["Leader name (Row 7)"] else []) ++
    (if f.phase1Zoom = "" then ["Zoom link (Row 9)"] else [])
  if missingFields = [] then .ok ()
  else .error ("Phase 1 validation failed: " ++
    String.intercalate ", " missingFields ++ " missing")

/-! ## Phase 1 processing (`processPhase1Event` and its orchestrator
step in `onCalendarTrigger`) -/

/-- Return value of `processPhase1Event`
(`{ eventData, buildFileId, leaderFolderId }`), extended with the
explicit storage state the run left behind and its IDS call count. -/
structure Phase1Outcome where
  eventData : EventData
  buildFileId : String
  leaderFolderId : String
  folder : List BuildFile
  apiCalls : Nat
deriving Repr, DecidableEq

/-- `processPhase1Event` (Loggerutils.js): extract → folder structure →
`processLeaderBuildFile` → notify → return ids.  Extraction and folder
creation are modelled as already resolved (`d`, `leaderFolder`,
`leaderFolderId`); the success email is a non-failing external side
effect.  Any `processLeaderBuildFile` error is re-thrown unswallowed.
`validatePhase1Success` is NOT called anywhere on this path, mirroring
the source. -/
def processPhase1Event (api : Except String LinkResult)
    (storeFullUrl : Bool) (newId leaderFolderId : String) (d : EventData)
    (leaderFolder : List BuildFile) : Except String Phase1Outcome :=
  match processLeaderBuildFile api storeFullUrl newId d leaderFolder with
  | .error e => .error e
  | .ok r =>
    .ok { eventData := d
          buildFileId := r.file.id
          leaderFolderId := leaderFolderId
          folder := r.folder
          apiCalls := r.apiCalls }

/-- How one event fared inside `onCalendarTrigger`'s per-event loop. -/
inductive StepOutcome
  | success
  | alreadyProcessed
  | errored
deriving Repr, DecidableEq

/-- State after the orchestrator handles one Phase 1 event: the tracking
rows, the leader folder contents, and which counter was bumped. -/
structure Phase1StepResult where
  rows : List LedgerRow
  folder : List BuildFile
  outcome : StepOutcome
deriving Repr, DecidableEq

/-- The Phase 1 branch of `onCalendarTrigger`'s per-event loop:
consult `isEventProcessed`; skip when fully processed; otherwise run
`processPhase1Event` and, only on success, `markEventProcessed` with
`trackingStatus.needsUpdate ? trackingStatus.rowIndex : -1`.  A thrown
error is caught by the per-event handler, which logs and notifies but
leaves the ledger untouched. -/
def phase1Step (enabled : Bool) (api : Except String LinkResult)
    (storeFullUrl : Bool) (newId leaderFolderId : String) (now : Int)
    (e : CalendarEvent) (d : EventData) (rows : List LedgerRow)
    (leaderFolder : List BuildFile) : Phase1StepResult :=
  let trackingStatus := isEventProcessed enabled rows e
  if trackingStatus.processed then
    { rows := rows, folder := leaderFolder, outcome := .alreadyProcessed }
  else
    match processPhase1Event api storeFullUrl newId leaderFolderId d
        leaderFolder with
    | .error _ =>
      { rows := rows, folder := leaderFolder, outcome := .errored }
    | .ok r =>
      { rows := markEventProcessed enabled rows e "Phase 1"
          { fullName := r.eventData.fullName
            companyName := r.eventData.companyName
            email := r.eventData.email
            buildFileId := r.buildFileId
            leaderFolderId := r.leaderFolderId } now
          (if trackingStatus.needsUpdate then trackingStatus.rowIndex
           else -1)
        folder := r.folder
        outcome := .success }

/-- The ledger-marking protocol shared by both branches of
`onCalendarTrigger` (skip when processed, else mark with the row index
exactly when `needsUpdate`), isolated from the per-phase processing. -/
def orchestratorMark (enabled : Bool) (now : Int) (e : CalendarEvent)
    (phase : String) (d : MarkData) (rows : List LedgerRow) :
    List LedgerRow :=
  let trackingStatus := isEventProcessed enabled rows e
  if trackingStatus.processed then rows
  else
    markEventProcessed enabled rows e phase d now
      (if trackingStatus.needsUpdate then trackingStatus.rowIndex else -1)

/-! ## Phase 2 processing (`processPhase2Event`,
`findBuildFileByFolderSearch`, `getBuildFileById`) -/

/-- A leader folder inside a company folder. -/
structure LeaderFolder where
  name : String
  files : List BuildFile
deriving Repr, DecidableEq

/-- A company folder inside the Strong Teams folder. -/
structure CompanyFolder where
  name : String
  leaders : List LeaderFolder
deriving Repr, DecidableEq

/-- `ProcessedEventsTracker.getBuildFileById`: `DriveApp.getFileById`
with a catch — a falsy or unresolvable id yields `null`.  `filesById`
models Drive's id → file map. -/
def getBuildFileById (filesById : List (String × BuildFile))
    (fileId : String) : Option BuildFile :=
  if fileId = "" then none
  else (filesById.find? (fun p => p.1 = fileId)).map (fun p => p.2)

/-- `findBuildFileByFolderSearch` (Loggerutils.js): company folder by
`companyName`, then leader folder by `fullName`, then the file named
`"<fullName> - Strong Teams Build File"`; `null` as soon as any step
finds nothing (each `getFoldersByName`/`getFilesByName` takes the first
hit). -/
def findBuildFileByFolderSearch (companies : List CompanyFolder)
    (d : EventData) : Option BuildFile :=
  match companies.find? (fun c => c.name = d.companyName) with
  | none => none
  | some companyFolder =>
    match companyFolder.leaders.find? (fun l => l.name = d.fullName) with
    | none => none
    | some leaderFolder =>
      leaderFolder.files.find?
        (fun f => f.name = d.fullName ++ " - Strong Teams Build File")

/-- `BuildFileManager.updatePhase2Settings`: write the Phase 2 date,
time and zoom cells, then best-effort copy the Phase 1 login code into
Phase 2 B8 when it is non-empty. -/
def updatePhase2Settings (f : BuildFile) (d : EventData) : BuildFile :=
  let f := { f with
    phase2Date := d.formattedDate
    phase2Time := d.formattedTime
    phase2Zoom := d.zoomLink }
  if f.phase1LoginCode ≠ "" then
    { f with phase2LoginCode := f.phase1LoginCode }
  else f

/-- `processPhase2Event` (Loggerutils.js), after extraction: two-tier
lookup — `findByEmail(email, fullName)` then a direct fetch by the
stored Build File ID; on a miss or a stale id, fall back to
`findBuildFileByFolderSearch`; throw when both fail; otherwise apply
`updatePhase2Settings` to the file that was resolved.  The returned
`.ok` value is the updated Build File (the source additionally returns
`eventData` for tracking). -/
def processPhase2Event (rows : List LedgerRow)
    (filesById : List (String × BuildFile))
    (companies : List CompanyFolder) (d : EventData) :
    Except String BuildFile :=
  let trackerResult := findByEmail rows d.email (some d.fullName)
  let viaTracker : Option BuildFile :=
    match trackerResult with
    | some tr =>
      if tr.buildFileId ≠ "" then getBuildFileById filesById tr.buildFileId
      else none
    | none => none
  let buildFile : Option BuildFile :=
    match viaTracker with
    | some f => some f
    | none => findBuildFileByFolderSearch companies d
  match buildFile with
  | none =>
    .error ("Build File not found for " ++ d.fullName ++ " (" ++
      d.email ++ "). Phase 1 may not have been completed yet.")
  | some f => .ok (updatePhase2Settings f d)

/-! ## Event data extraction (`CalendarUtils`)

`extractEventData` strips HTML from the event description, pulls the
labelled fields and the first email address out of the text, and derives
the company name from the email's domain.  The regular-expression
operations of the source are embedded as explicit character scanners
with JavaScript regex semantics (leftmost match, greedy quantifiers,
global replacement resuming after the replaced text). -/

/-- Case-insensitive character comparison (the `i` regex flag). -/
def ciEq (a b : Char) : Bool := a.toLower = b.toLower

/-- Match a literal pattern case-insensitively; return the remainder. -/
def matchLit (pat : List Char) (s : List Char) : Option (List Char) :=
  match pat, s with
  | [], rest => some rest
  | _ :: _, [] => none
  | p :: ps, c :: cs => if ciEq p c then matchLit ps cs else none

/-- Greedy `\s*`: the remainder after the maximal whitespace run. -/
def skipWs : List Char → List Char
  | [] => []
  | c :: cs => if isJsWs c then skipWs cs else c :: cs

/-- `[^>]*>`: drop up to and including the next `'>'` (fail without one). -/
def consumeToGt : List Char → Option (List Char)
  | [] => none
  | c :: cs => if c = '>' then some cs else consumeToGt cs

/-- `/<br\s*\/?>/i` at the head of the input. -/
def matchBrOpen (s : List Char) : Option (List Char) :=
  match matchLit ['<', 'b', 'r'] s with
  | none => none
  | some r =>
    match skipWs r with
    | '/' :: '>' :: rest => some rest
    | '>' :: rest => some rest
    | _ => none

/-- `/<\/\s*NAME\s*>/i` at the head of the input. -/
def matchCloseTag (name : List Char) (s : List Char) : Option (List Char) :=
  match s with
  | '<' :: '/' :: rest =>
    match matchLit name (skipWs rest) with
    | none => none
    | some r =>
      match skipWs r with
      | '>' :: rest2 => some rest2
      | _ => none
  | _ => none

/-- `/<NAME[^>]*>/i` at the head of the input (as in the source, this
also fires on any longer tag name with the same prefix). -/
def matchOpenTagAny (name : List Char) (s : List Char) : Option (List Char) :=
  match s with
  | '<' :: rest =>
    match matchLit name rest with
    | none => none
    | some r => consumeToGt r
  | _ => none

/-- `/<\/\s*h[1-6]\s*>/i` at the head of the input. -/
def matchCloseH (s : List Char) : Option (List Char) :=
  match s with
  | '<' :: '/' :: rest =>
    match skipWs rest with
    | h :: d :: r2 =>
      if ciEq h 'h' && ('1' ≤ d && d ≤ '6') then
        match skipWs r2 with
        | '>' :: rest2 => some rest2
        | _ => none
      else none
    | _ => none
  | _ => none

/-- `/<h[1-6][^>]*>/i` at the head of the input. -/
def matchOpenH (s : List Char) : Option (List Char) :=
  match s with
  | '<' :: h :: d :: rest =>
    if ciEq h 'h' && ('1' ≤ d && d ≤ '6') then consumeToGt rest else none
  | _ => none

/-- `/<[^>]*>/` at the head of the input. -/
def matchAnyTag : List Char → Option (List Char)
  | '<' :: rest => consumeToGt rest
  | _ => none

/-- `/[ \t]+/` at the head of the input. -/
def matchSpaceTabRun : List Char → Option (List Char)
  | [] => none
  | c :: cs =>
    if c = ' ' || c = '\t' then
      some (cs.dropWhile (fun x => x = ' ' || x = '\t'))
    else none

/-- `/ +\n/` at the head of the input. -/
def matchSpacesNl : List Char → Option (List Char)
  | ' ' :: cs =>
    match cs.dropWhile (fun x => x = ' ') with
    | '\n' :: rest => some rest
    | _ => none
  | _ => none

/-- `/\n +/` at the head of the input. -/
def matchNlSpaces : List Char → Option (List Char)
  | '\n' :: ' ' :: cs => some (cs.dropWhile (fun x => x = ' '))
  | _ => none

/-- `/\n{3,}/` at the head of the input. -/
def matchNl3 : List Char → Option (List Char)
  | '\n' :: '\n' :: '\n' :: cs => some (cs.dropWhile (fun x => x = '\n'))
  | _ => none

/-- Global replacement with a fixed replacement string: scan left to
right, replace each match and resume after it (fuelled by the input
length; every match consumes at least one character). -/
def globalReplaceAux (m : List Char → Option (List Char))
    (repl : List Char) : Nat → List Char → List Char
  | 0, l => l
  | _ + 1, [] => []
  | fuel + 1, c :: cs =>
    match m (c :: cs) with
    | some rest => repl ++ globalReplaceAux m repl fuel rest
    | none => c :: globalReplaceAux m repl fuel cs

/-- `String.prototype.replace(/pattern/g, repl)` for the fixed-string
replacements of `stripHtml`. -/
def gsub (m : List Char → Option (List Char)) (repl : List Char)
    (l : List Char) : List Char :=
  globalReplaceAux m repl l.length l

/-- Decimal digit list to number (`parseInt` of a digits-only string). -/
def digitsToNat (ds : List Char) : Nat :=
  ds.foldl (fun n c => n * 10 + (c.toNat - 48)) 0

/-- `/&#(\d+);/` at the head of the input, with its
`String.fromCharCode` replacement (which reduces modulo 2^16). -/
def matchNumericEntity : List Char → Option (Char × List Char)
  | '&' :: '#' :: rest =>
    let digits := rest.takeWhile Char.isDigit
    match rest.dropWhile Char.isDigit with
    | ';' :: rest2 =>
      if digits = [] then none
      else some (Char.ofNat (digitsToNat digits % 65536), rest2)
    | _ => none
  | _ => none

/-- Global `/&#(\d+);/g` decode. -/
def decodeNumericEntities : Nat → List Char → List Char
  | 0, l => l
  | _ + 1, [] => []
  | fuel + 1, c :: cs =>
    match matchNumericEntity (c :: cs) with
    | some (ch, rest) => ch :: decodeNumericEntities fuel rest
    | none => c :: decodeNumericEntities fuel cs

/-- `CalendarUtils.stripHtml`: the source's replacement pipeline —
breaks/paragraphs/divs/list items/headings to newlines, all remaining
tags removed, entities decoded, whitespace normalised, trimmed, and a
trailing newline ensured for the last field. -/
def stripHtml (html : String) : String :=
  if html = "" then ""
  else
    let t := html.data
    let t := gsub matchBrOpen ['\n'] t
    let t := gsub (matchCloseTag ['b', 'r']) ['\n'] t
    let t := gsub (matchCloseTag ['p']) ['\n', '\n'] t
    let t := gsub (matchOpenTagAny ['p']) ['\n'] t
    let t := gsub (matchCloseTag ['d', 'i', 'v']) ['\n'] t
    let t := gsub (matchOpenTagAny ['d', 'i', 'v']) ['\n'] t
    let t := gsub (matchCloseTag ['l', 'i']) ['\n'] t
    let t := gsub (matchOpenTagAny ['l', 'i']) ['\n', '•', ' '] t
    let t := gsub matchCloseH ['\n', '\n'] t
    let t := gsub matchOpenH ['\n'] t
    let t := gsub matchAnyTag [] t
    let t := gsub (matchLit ['&', 'n', 'b', 's', 'p', ';']) [' '] t
    let t := gsub (matchLit ['&', 'a', 'm', 'p', ';']) ['&'] t
    let t := gsub (matchLit ['&', 'l', 't', ';']) ['<'] t
    let t := gsub (matchLit ['&', 'g', 't', ';']) ['>'] t
    let t := gsub (matchLit ['&', 'q', 'u', 'o', 't', ';']) ['"'] t
    let t := gsub (matchLit ['&', '#', '3', '9', ';']) [Char.ofNat 39] t
    let t := gsub (matchLit ['&', 'a', 'p', 'o', 's', ';']) [Char.ofNat 39] t
    let t := decodeNumericEntities t.length t
    let t := gsub matchSpaceTabRun [' '] t
    let t := gsub matchSpacesNl ['\n'] t
    let t := gsub matchNlSpaces ['\n'] t
    let t := gsub matchNl3 ['\n', '\n'] t
    let s := jsTrim (String.mk t)
    if s ≠ "" && s.data.getLast? ≠ some '\n' then s ++ "\n" else s

/-- JavaScript `label.replace(':', '')`: drop the first colon only. -/
def removeFirstColon : List Char → List Char
  | [] => []
  | c :: cs => if c = ':' then cs else c :: removeFirstColon cs

/-- `[^\n\r]`. -/
def nonNl (c : Char) : Bool := c ≠ '\n' && c ≠ Char.ofNat 13

/-- `\s*([^\n\r]+)` with regex backtracking: the greedy whitespace run
gives back just enough for the capture to start on a non-newline
character; the capture then runs greedily to the end of the line. -/
def wsStarCapture (rest : List Char) : Option (List Char) :=
  match rest.dropWhile isJsWs with
  | c :: cs => some ((c :: cs).takeWhile nonNl)
  | [] =>
    match (rest.takeWhile isJsWs).reverse.find? nonNl with
    | some c => some [c]
    | none => none

/-- The search loop of `extractField`'s
`new RegExp(cleanLabel + '\\s*:\\s*([^\\n\\r]+)', 'i')`: find the
leftmost position where the whole pattern succeeds and return the
capture. -/
def extractFieldSearch (lbl : List Char) : List Char → Option (List Char)
  | [] => none
  | c :: cs =>
    match matchLit lbl (c :: cs) with
    | some afterLabel =>
      (match skipWs afterLabel with
       | ':' :: afterColon =>
         match wsStarCapture afterColon with
         | some cap => some cap
         | none => extractFieldSearch lbl cs
       | _ => extractFieldSearch lbl cs)
    | none => extractFieldSearch lbl cs

/-- Leftmost index where `/(lbl)\s*:/i` matches, for the next-label
truncation loop of `extractField`. -/
def findLabelIdx (lbl : List Char) : List Char → Nat → Option Nat
  | [], _ => none
  | c :: cs, i =>
    match matchLit lbl (c :: cs) with
    | some after =>
      (match skipWs after with
       | ':' :: _ => some i
       | _ => findLabelIdx lbl cs (i + 1))
    | none => findLabelIdx lbl cs (i + 1)

/-- The common YouCanBookMe labels `extractField` truncates at. -/
def ycbmLabels : List String :=
  ["last name", "first name", "phone number", "email",
   "additional email", "notes", "appointment type", "booking page",
   "duration", "booking reference", "location", "reschedule", "cancel",
   "ycbm link"]

/-- `CalendarUtils.extractField`: match `"Label: value"` case-insensitively,
capture to the end of the line, then cut the value at the earliest
following field label. -/
def extractField (description : String) (label : String) : String :=
  let cleanLabel := jsTrim (String.mk (removeFirstColon label.data))
  match extractFieldSearch cleanLabel.data description.data with
  | none => ""
  | some cap =>
    let value := jsTrim (String.mk cap)
    let earliestIndex := ycbmLabels.foldl
      (fun acc nextLabel =>
        match findLabelIdx nextLabel.data value.data 0 with
        | some i => min acc i
        | none => acc)
      value.data.length
    if earliestIndex < value.data.length then
      jsTrim (String.mk (value.data.take earliestIndex))
    else value

/-- The local-part character class `[a-zA-Z0-9._+-]` of the email regex. -/
def isEmailA (c : Char) : Bool :=
  c.isAlpha || c.isDigit || c = '.' || c = '_' || c = '+' || c = '-'

/-- The domain character class `[a-zA-Z0-9._-]` of the email regex. -/
def isEmailB (c : Char) : Bool :=
  c.isAlpha || c.isDigit || c = '.' || c = '_' || c = '-'

/-- `/([a-zA-Z0-9._+-]+@[a-zA-Z0-9._-]+\.[a-zA-Z0-9._-]+)/` anchored at
the head of the input.  The greedy local-part run must end exactly at
`'@'`; the domain run must admit a split `X '.' Y` with `X`, `Y`
non-empty, in which case the match extends over the whole run. -/
def emailMatchAt (s : List Char) : Option (List Char) :=
  let aRun := s.takeWhile isEmailA
  if aRun = [] then none
  else
    match s.dropWhile isEmailA with
    | '@' :: rest2 =>
      let bRun := rest2.takeWhile isEmailB
      if ((bRun.drop 1).dropLast).any (fun c => c = '.') then
        some (aRun ++ '@' :: bRun)
      else none
    | _ => none

/-- Leftmost match of the email regex. -/
def firstEmailMatch : List Char → Option (List Char)
  | [] => none
  | c :: cs =>
    match emailMatchAt (c :: cs) with
    | some m => some m
    | none => firstEmailMatch cs

/-- `CalendarUtils.extractFirstEmail`: prefer an email inside the
`"Email:"` field, else the first email anywhere in the description,
else `''`. -/
def extractFirstEmail (description : String) : String :=
  let emailField := extractField description "Email:"
  match (if emailField ≠ "" then firstEmailMatch emailField.data
         else none) with
  | some m => String.mk m
  | none =>
    match firstEmailMatch description.data with
    | some m => String.mk m
    | none => ""

/-- `CalendarUtils.capitalizeWord`: first character upper-cased, the
rest lower-cased; `''` for a falsy word. -/
def capitalizeWord (word : String) : String :=
  match word.data with
  | [] => ""
  | c :: rest => String.mk (c.toUpper :: rest.map Char.toLower)

/-- JavaScript `String.prototype.split` on a single-character class:
separators delimit (possibly empty) fields. -/
def splitChars (p : Char → Bool) : List Char → List (List Char)
  | [] => [[]]
  | c :: cs =>
    if p c then [] :: splitChars p cs
    else
      match splitChars p cs with
      | h :: t => (c :: h) :: t
      | [] => [[c]]

/-- The `/([a-z])([A-Z])/g → '$1 $2'` camel-case splitting replace. -/
def camelSplit : List Char → List Char
  | a :: b :: rest =>
    if a.isLower && b.isUpper then a :: ' ' :: camelSplit (b :: rest)
    else a :: camelSplit (b :: rest)
  | l => l

/-- `CalendarUtils.formatDomainAsCompanyName`: keep the domain part
before the first dot, split camel case, turn dashes/underscores into
spaces, and capitalize every word. -/
def formatDomainAsCompanyName (domain : String) : String :=
  if domain = "" then ""
  else
    let companyPart := (splitChars (fun c => c = '.') domain.data).headD []
    let cameled := camelSplit companyPart
    let dashJoined := String.intercalate " "
      ((splitChars (fun c => c = '-' || c = '_') cameled).map String.mk)
    String.intercalate " "
      ((splitChars (fun c => c = ' ') dashJoined.data).map
        (fun w => capitalizeWord (String.mk w)))

/-- JavaScript `email.split('@')[1]`, with a missing element modelled by
`''` (an absent domain and an empty one both make
`formatDomainAsCompanyName` return `''`). -/
def jsEmailDomain (email : String) : String :=
  ((splitChars (fun c => c = '@') email.data).map String.mk).getD 1 ""

/-- `CalendarUtils.getCompanyFromEmail`. -/
def getCompanyFromEmail (email : String) : String :=
  if email = "" then "" else formatDomainAsCompanyName (jsEmailDomain email)

/-- `toLocaleDateString('en-US', …)` of the event start — an external
locale rendering, modelled injectively. -/
def getFormattedDate (t : Int) : String := "D" ++ toString t

/-- `toLocaleTimeString('en-US', …)` of the event start — an external
locale rendering, modelled injectively. -/
def getFormattedTime (t : Int) : String := "T" ++ toString t

/-- The object `CalendarUtils.extractEventData` returns. -/
structure ExtractedData where
  eventId : String
  eventTitle : String
  startDate : Int
  firstName : String
  lastName : String
  email : String
  phoneNumber : String
  zoomLink : String
  formattedDate : String
  formattedTime : String
  fullName : String
  companyName : String
deriving Repr, DecidableEq

/-- `CalendarUtils.extractEventData`: strip HTML, extract the labelled
fields and the first email, capitalize the names, derive the company
name from the email domain, and reject the event when any required
field is missing. -/
def extractEventData (e : CalendarEvent) : Except String ExtractedData :=
  let description := stripHtml e.description
  let firstName := capitalizeWord (extractField description "First name:")
  let lastName := capitalizeWord (extractField description "Last name:")
  let email := extractFirstEmail description
  let fullName := firstName ++ " " ++ lastName
  let companyName := getCompanyFromEmail email
  if firstName = "" ∨ lastName = "" ∨ email = "" then
    .error "Missing required fields: firstName, lastName, or email"
  else
    .ok { eventId := e.id
          eventTitle := e.title
          startDate := e.startTime
          firstName := firstName
          lastName := lastName
          email := email
          phoneNumber := extractField description "Phone number:"
          zoomLink := e.location
          formattedDate := getFormattedDate e.startTime
          formattedTime := getFormattedTime e.startTime
          fullName := fullName
          companyName := companyName }

/-! ## Shared helper lemmas -/

/-- The ledger uniqueness invariant: event ids are pairwise distinct
(at most one row per calendar event). -/
def uniqueIds (rows : List LedgerRow) : Prop :=
  (rows.map (fun r => r.eventId)).Nodup

instance (rows : List LedgerRow) : Decidable (uniqueIds rows) :=
  inferInstanceAs (Decidable (List.Nodup _))

theorem isEventProcessedAux_of_not_mem (eventId fp : String)
    (rows : List LedgerRow) (i : Int)
    (h : ∀ r ∈ rows, r.eventId ≠ eventId) :
    isEventProcessedAux eventId fp rows i = ⟨false, false, -1⟩ := by
  induction rows generalizing i with
  | nil => rfl
  | cons r rs ih =>
    have hr : r.eventId ≠ eventId := h r (by simp)
    simp only [isEventProcessedAux, if_neg hr]
    exact ih (i + 1) (fun x hx => h x (List.mem_cons_of_mem _ hx))

theorem isEventProcessedAux_not_mem_of (eventId fp : String)
    (rows : List LedgerRow) (i : Int)
    (hp : (isEventProcessedAux eventId fp rows i).processed = false)
    (hn : (isEventProcessedAux eventId fp rows i).needsUpdate = false) :
    ∀ r ∈ rows, r.eventId ≠ eventId := by
  induction rows generalizing i with
  | nil => simp
  | cons r rs ih =>
    have hr : r.eventId ≠ eventId := by
      intro hcon
      by_cases hf : r.fingerprint = fp
      · rw [show isEventProcessedAux eventId fp (r :: rs) i =
          ⟨true, false, i + 1⟩ by simp [isEventProcessedAux, hcon, hf]]
          at hp
        exact absurd hp (by simp)
      · rw [show isEventProcessedAux eventId fp (r :: rs) i =
          ⟨false, true, i + 1⟩ by simp [isEventProcessedAux, hcon, hf]]
          at hn
        exact absurd hn (by simp)
    intro x hx
    rcases List.mem_cons.mp hx with rfl | hx'
    · exact hr
    · have heq : isEventProcessedAux eventId fp (r :: rs) i =
        isEventProcessedAux eventId fp rs (i + 1) := by
        simp [isEventProcessedAux, hr]
      rw [heq] at hp hn
      exact ih (i + 1) hp hn x hx'

theorem isEventProcessedAux_first (eventId fp : String)
    (rows : List LedgerRow) (j : Nat) (hj : j < rows.length) (i : Int)
    (hfirst : ∀ k (hk : k < rows.length), k < j →
      (rows.get ⟨k, hk⟩).eventId ≠ eventId)
    (hmatch : (rows.get ⟨j, hj⟩).eventId = eventId) :
    isEventProcessedAux eventId fp rows i =
      if (rows.get ⟨j, hj⟩).fingerprint = fp then
        ⟨true, false, i + (j : Int) + 1⟩
      else ⟨false, true, i + (j : Int) + 1⟩ := by
  induction rows generalizing j i with
  | nil => exact absurd hj (by simp)
  | cons r rs ih =>
    cases j with
    | zero =>
      simp only [List.get] at hmatch ⊢
      simp [isEventProcessedAux, hmatch]
    | succ k =>
      have hr : r.eventId ≠ eventId := hfirst 0 (by simp) (Nat.succ_pos k)
      have hk : k < rs.length := by simpa using hj
      have hrec := ih k hk (i + 1)
        (fun m hm hmk => hfirst (m + 1) (by simpa using hm)
          (by omega))
        (by simpa using hmatch)
      simp only [isEventProcessedAux, if_neg hr]
      rw [hrec]
      have harith : i + 1 + (k : Int) + 1 = i + ((k : Int) + 1) + 1 := by
        ring
      simp only [List.get] at hmatch ⊢
      push_cast
      rw [harith]

theorem isEventProcessedAux_needsUpdate (eventId fp : String)
    (rows : List LedgerRow) (i : Int)
    (h : (isEventProcessedAux eventId fp rows i).needsUpdate = true) :
    ∃ j, ∃ hj : j < rows.length,
      (isEventProcessedAux eventId fp rows i).rowIndex = i + (j : Int) + 1 ∧
      (rows.get ⟨j, hj⟩).eventId = eventId ∧
      (rows.get ⟨j, hj⟩).fingerprint ≠ fp := by
  induction rows generalizing i with
  | nil => simp [isEventProcessedAux] at h
  | cons r rs ih =>
    by_cases hr : r.eventId = eventId
    · by_cases hf : r.fingerprint = fp
      · simp [isEventProcessedAux, hr, hf] at h
      · refine ⟨0, by simp, ?_, hr, hf⟩
        simp [isEventProcessedAux, hr, hf]
    · have heq : isEventProcessedAux eventId fp (r :: rs) i =
        isEventProcessedAux eventId fp rs (i + 1) := by
        simp [isEventProcessedAux, hr]
      rw [heq] at h ⊢
      obtain ⟨j, hj, h1, h2, h3⟩ := ih (i + 1) h
      refine ⟨j + 1, by simpa using hj, ?_, by simpa using h2,
        by simpa using h3⟩
      rw [h1]; push_cast; ring

theorem map_eventId_set (rows : List LedgerRow) (j : Nat)
    (hj : j < rows.length) (row : LedgerRow)
    (h : row.eventId = (rows.get ⟨j, hj⟩).eventId) :
    (rows.set j row).map (fun r => r.eventId) =
      rows.map (fun r => r.eventId) := by
  induction rows generalizing j with
  | nil => simp
  | cons r rs ih =>
    cases j with
    | zero =>
      simp only [List.get] at h
      simp [List.set, h]
    | succ k =>
      simp only [List.get] at h
      have hk : k < rs.length := by simpa using hj
      simp [List.set, ih k hk h]

set_option maxRecDepth 40000

/-! ## C8 — fingerprint determinism and its counterexample -/

/-- C8 (counterexample): the claim's "the fingerprint changes if and
only if those mutable details change" fails in the "if" direction: the
32-bit rolling hash collides.  Two events identical except for their
locations `"Aa"` and `"BB"` (a mutable detail differing) receive the
same fingerprint, so a changed detail does not always change the
fingerprint. -/
theorem fingerprint_collision_counterexample :
    generateFingerprint
        { id := "e1", title := "t", description := "", location := "Aa",
          startTime := 0, endTime := 1 } =
      generateFingerprint
        { id := "e1", title := "t", description := "", location := "BB",
          startTime := 0, endTime := 1 } ∧
    ({ id := "e1", title := "t", description := "", location := "Aa",
       startTime := 0, endTime := 1 : CalendarEvent }).location ≠
      ({ id := "e1", title := "t", description := "", location := "BB",
         startTime := 0, endTime := 1 : CalendarEvent }).location := by
  constructor
  · rfl
  · decide

/-- C8 (amended): `generateFingerprint` is a deterministic function of
exactly the event's start time, end time, location, and first 100
characters of the description — two events agreeing on those four
values (whatever their titles, ids, or later description text) receive
equal fingerprints; equivalently the fingerprint changes *only if* one
of those mutable details changes.  (The converse — a changed detail
always changes the fingerprint — is refuted by the hash collision
counterexample.) -/
theorem fingerprint_determined_by_details (e1 e2 : CalendarEvent)
    (hs : e1.startTime = e2.startTime) (he : e1.endTime = e2.endTime)
    (hl : e1.location = e2.location)
    (hd : e1.description.take 100 = e2.description.take 100) :
    generateFingerprint e1 = generateFingerprint e2 := by
  unfold generateFingerprint
  rw [hs, he, hl, hd]

/-- Witness for C8's amended theorem: two concrete events differing in
title and in description text beyond the first 100 characters get the
same fingerprint. -/
theorem fingerprint_determined_by_details_witness :
    generateFingerprint
        { id := "a", title := "Phase 1 - Alice",
          description := String.mk (List.replicate 100 'x') ++ "tail one",
          location := "https://zoom/x", startTime := 7, endTime := 9 } =
      generateFingerprint
        { id := "b", title := "Phase 1 - Bob",
          description := String.mk (List.replicate 100 'x') ++ "other",
          location := "https://zoom/x", startTime := 7, endTime := 9 } :=
  fingerprint_determined_by_details _ _ rfl rfl rfl (by decide)

/-! ## C9 — retention pruning -/

theorem eraseIdx_at_append {α : Type} (l₁ : List α) (x : α) (l₂ : List α) :
    (l₁ ++ x :: l₂).eraseIdx l₁.length = l₁ ++ l₂ := by
  induction l₁ with
  | nil => rfl
  | cons a l ih => simp [List.eraseIdx, ih]

theorem cleanupFrom_succ_expired (cutoff : Int)
    (snapshot : List LedgerRow) (k : Nat) (r : LedgerRow)
    (hget : snapshot[k]? = some r) (hexp : rowExpired cutoff r = true)
    (sheet : List LedgerRow) (d : Nat) :
    cleanupFrom cutoff snapshot (k + 1) sheet d =
      cleanupFrom cutoff snapshot k (sheet.eraseIdx k) (d + 1) := by
  rw [cleanupFrom, hget]
  simp [hexp]

theorem cleanupFrom_succ_kept (cutoff : Int) (snapshot : List LedgerRow)
    (k : Nat) (r : LedgerRow) (hget : snapshot[k]? = some r)
    (hexp : rowExpired cutoff r = false) (sheet : List LedgerRow)
    (d : Nat) :
    cleanupFrom cutoff snapshot (k + 1) sheet d =
      cleanupFrom cutoff snapshot k sheet d := by
  rw [cleanupFrom, hget]
  simp [hexp]

theorem cleanupFrom_spec (cutoff : Int) (snapshot : List LedgerRow)
    (j : Nat) (hj : j ≤ snapshot.length) (tail : List LedgerRow)
    (d : Nat) :
    cleanupFrom cutoff snapshot j (snapshot.take j ++ tail) d =
      ((snapshot.take j).filter (fun r => !rowExpired cutoff r) ++ tail,
       d + (snapshot.take j).countP (rowExpired cutoff)) := by
  induction j generalizing tail d with
  | zero => simp [cleanupFrom]
  | succ k ih =>
    have hk : k < snapshot.length := by omega
    have hget : snapshot[k]? = some (snapshot.get ⟨k, hk⟩) :=
      List.getElem?_eq_getElem hk
    have htake : snapshot.take (k + 1) =
        snapshot.take k ++ [snapshot.get ⟨k, hk⟩] := by
      rw [List.take_succ, hget]
      rfl
    have hlen : (snapshot.take k).length = k := by
      simp [List.length_take]
      omega
    have hsheet : snapshot.take (k + 1) ++ tail =
        snapshot.take k ++ snapshot.get ⟨k, hk⟩ :: tail := by
      rw [htake, List.append_assoc, List.cons_append, List.nil_append]
    by_cases hexp : rowExpired cutoff (snapshot.get ⟨k, hk⟩)
    · have herase :
          (snapshot.take (k + 1) ++ tail).eraseIdx k =
            snapshot.take k ++ tail := by
        have h0 := eraseIdx_at_append (snapshot.take k)
          (snapshot.get ⟨k, hk⟩) tail
        rw [hlen] at h0
        rw [hsheet]
        exact h0
      rw [cleanupFrom_succ_expired cutoff snapshot k _ hget hexp,
        herase, ih (by omega) tail (d + 1), htake]
      rw [List.filter_append, List.countP_append]
      simp only [List.filter_cons, List.countP_cons, hexp,
        List.filter_nil, List.countP_nil]
      simp only [Bool.not_true, Bool.false_eq_true, if_false]
      rw [List.append_nil]
      refine Prod.ext rfl ?_
      simp
      omega
    · rw [cleanupFrom_succ_kept cutoff snapshot k _ hget
        (by simpa using hexp), hsheet,
        ih (by omega) (snapshot.get ⟨k, hk⟩ :: tail) d, htake]
      rw [List.filter_append, List.countP_append]
      simp only [List.filter_cons, List.countP_cons,
        List.filter_nil, List.countP_nil]
      have hexp2 : rowExpired cutoff snapshot[k] = false := by
        have : snapshot.get ⟨k, hk⟩ = snapshot[k] := rfl
        rw [← this]
        simpa using hexp
      simp [hexp2]

/-- C9: `cleanupOldRecords` deletes exactly the rows whose Event Date
precedes the cutoff (`now` minus the retention period) — the reverse
index walk neither skips nor re-visits a row, so the survivors are
precisely the rows at or after the cutoff (in their original order),
the reported count is the number of expired rows, and an immediate
second run (same cutoff) keeps every row and deletes zero. -/
theorem cleanupOldRecords_spec (cutoff : Int) (rows : List LedgerRow) :
    cleanupOldRecords cutoff rows =
      (rows.filter (fun r => !rowExpired cutoff r),
       rows.countP (rowExpired cutoff)) ∧
    cleanupOldRecords cutoff (cleanupOldRecords cutoff rows).1 =
      ((cleanupOldRecords cutoff rows).1, 0) := by
  have hmain : ∀ l : List LedgerRow, cleanupOldRecords cutoff l =
      (l.filter (fun r => !rowExpired cutoff r),
       l.countP (rowExpired cutoff)) := by
    intro l
    have := cleanupFrom_spec cutoff l l.length (le_refl _) [] 0
    simpa [cleanupOldRecords, List.take_length] using this
  refine ⟨hmain rows, ?_⟩
  rw [hmain rows, hmain (rows.filter (fun r => !rowExpired cutoff r))]
  have hfilter :
      (rows.filter (fun r => !rowExpired cutoff r)).filter
        (fun r => !rowExpired cutoff r) =
      rows.filter (fun r => !rowExpired cutoff r) := by
    rw [List.filter_eq_self]
    intro r hr
    exact (List.mem_filter.mp hr).2
  have hcount :
      (rows.filter (fun r => !rowExpired cutoff r)).countP
        (rowExpired cutoff) = 0 := by
    rw [List.countP_eq_zero]
    intro r hr
    have := (List.mem_filter.mp hr).2
    simpa using this
  simp [hfilter, hcount]

/-! ## C1 — the `isEventProcessed` trichotomy -/

/-- C1: with tracking enabled, `isEventProcessed` returns exactly one of
three outcomes over a ledger with at most one row per event id: no row
with the event's id → `{processed := false, needsUpdate := false}` and
no row reference (`-1`); a row with the id and a matching recomputed
fingerprint → `{processed := true, needsUpdate := false}` with that
row's sheet reference (list index `j` ↦ sheet row `j + 2`); such a row
with a differing stored fingerprint →
`{processed := false, needsUpdate := true}` with the same reference. -/
theorem isEventProcessed_trichotomy (rows : List LedgerRow)
    (e : CalendarEvent) (hu : uniqueIds rows) :
    ((∀ r ∈ rows, r.eventId ≠ e.id) →
      isEventProcessed true rows e = ⟨false, false, -1⟩) ∧
    (∀ j (hj : j < rows.length), (rows.get ⟨j, hj⟩).eventId = e.id →
      ((rows.get ⟨j, hj⟩).fingerprint = generateFingerprint e →
        isEventProcessed true rows e = ⟨true, false, (j : Int) + 2⟩) ∧
      ((rows.get ⟨j, hj⟩).fingerprint ≠ generateFingerprint e →
        isEventProcessed true rows e = ⟨false, true, (j : Int) + 2⟩)) := by
  constructor
  · intro h
    show isEventProcessedAux e.id (generateFingerprint e) rows 1 = _
    exact isEventProcessedAux_of_not_mem _ _ rows 1 h
  · intro j hj hmatch
    have hfirst : ∀ k (hk : k < rows.length), k < j →
        (rows.get ⟨k, hk⟩).eventId ≠ e.id := by
      intro k hk hkj hcon
      have hmap : k < (rows.map (fun r => r.eventId)).length := by
        simpa using hk
      have hmap2 : j < (rows.map (fun r => r.eventId)).length := by
        simpa using hj
      have heq : (rows.map (fun r => r.eventId))[k] =
          (rows.map (fun r => r.eventId))[j] := by
        rw [List.getElem_map, List.getElem_map]
        show (rows.get ⟨k, hk⟩).eventId = (rows.get ⟨j, hj⟩).eventId
        rw [hcon, hmatch]
      exact absurd ((hu.getElem_inj_iff).mp heq) (Nat.ne_of_lt hkj)
    have hrec := isEventProcessedAux_first e.id (generateFingerprint e)
      rows j hj 1 hfirst hmatch
    have harith : (1 : Int) + (j : Int) + 1 = (j : Int) + 2 := by ring
    constructor
    · intro hfp
      show isEventProcessedAux e.id (generateFingerprint e) rows 1 = _
      rw [hrec, if_pos hfp, harith]
    · intro hfp
      show isEventProcessedAux e.id (generateFingerprint e) rows 1 = _
      rw [hrec, if_neg hfp, harith]

/-- Witness for C1: a two-row ledger exercising the "stale fingerprint"
outcome at a concrete event. -/
theorem isEventProcessed_trichotomy_witness :
    uniqueIds
      [{ eventId := "other", fingerprint := "x", phase := "Phase 1",
         leaderName := "L", company := "C", eventDate := some 0,
         processedAt := 0, lastUpdated := 0, email := "l@c.com",
         buildFileId := "b", leaderFolderId := "f" },
       { eventId := "e1", fingerprint := "stale", phase := "Phase 1",
         leaderName := "L", company := "C", eventDate := some 0,
         processedAt := 0, lastUpdated := 0, email := "l@c.com",
         buildFileId := "b", leaderFolderId := "f" }] ∧
    isEventProcessed true
      [{ eventId := "other", fingerprint := "x", phase := "Phase 1",
         leaderName := "L", company := "C", eventDate := some 0,
         processedAt := 0, lastUpdated := 0, email := "l@c.com",
         buildFileId := "b", leaderFolderId := "f" },
       { eventId := "e1", fingerprint := "stale", phase := "Phase 1",
         leaderName := "L", company := "C", eventDate := some 0,
         processedAt := 0, lastUpdated := 0, email := "l@c.com",
         buildFileId := "b", leaderFolderId := "f" }]
      { id := "e1", title := "t", description := "", location := "loc",
        startTime := 0, endTime := 1 } = ⟨false, true, 3⟩ := by
  refine ⟨by decide, ?_⟩
  have h := (isEventProcessed_trichotomy
    [{ eventId := "other", fingerprint := "x", phase := "Phase 1",
       leaderName := "L", company := "C", eventDate := some 0,
       processedAt := 0, lastUpdated := 0, email := "l@c.com",
       buildFileId := "b", leaderFolderId := "f" },
     { eventId := "e1", fingerprint := "stale", phase := "Phase 1",
       leaderName := "L", company := "C", eventDate := some 0,
       processedAt := 0, lastUpdated := 0, email := "l@c.com",
       buildFileId := "b", leaderFolderId := "f" }]
    { id := "e1", title := "t", description := "", location := "loc",
      startTime := 0, endTime := 1 } (by decide)).2 1 (by decide)
    (by decide)
  exact h.2 (by decide)

/-! ## C5 — at most one ledger row per event id -/

/-- C5: under the orchestrator's marking protocol
(`markEventProcessed` called with `needsUpdate ? rowIndex : -1` after
`isEventProcessed`), the at-most-one-row-per-event-id invariant is
preserved; when `needsUpdate` reports a row reference, exactly that row
is overwritten in place (row count unchanged); a new row is appended
exactly when no row for the event id exists, and the row count never
grows while some row for the id is present. -/
theorem isEventProcessedAux_processed_not_needsUpdate
    (eventId fp : String) (rows : List LedgerRow) (i : Int) :
    (isEventProcessedAux eventId fp rows i).processed = true →
    (isEventProcessedAux eventId fp rows i).needsUpdate = false := by
  induction rows generalizing i with
  | nil => simp [isEventProcessedAux]
  | cons r rs ih =>
    by_cases hr : r.eventId = eventId
    · by_cases hf : r.fingerprint = fp
      · simp [isEventProcessedAux, hr, hf]
      · simp [isEventProcessedAux, hr, hf]
    · simp only [isEventProcessedAux, if_neg hr]
      exact ih (i + 1)

theorem ledger_upsert_unique (rows : List LedgerRow) (e : CalendarEvent)
    (phase : String) (d : MarkData) (now : Int) (hu : uniqueIds rows) :
    uniqueIds (orchestratorMark true now e phase d rows) ∧
    ((isEventProcessed true rows e).needsUpdate = true →
      ∃ j, ∃ hj : j < rows.length,
        (rows.get ⟨j, hj⟩).eventId = e.id ∧
        orchestratorMark true now e phase d rows =
          rows.set j (buildRowData e phase d now) ∧
        (orchestratorMark true now e phase d rows).length =
          rows.length) ∧
    ((∀ r ∈ rows, r.eventId ≠ e.id) →
      orchestratorMark true now e phase d rows =
        rows ++ [buildRowData e phase d now]) ∧
    ((∃ r ∈ rows, r.eventId = e.id) →
      (orchestratorMark true now e phase d rows).length =
        rows.length) := by
  have hstAux : isEventProcessed true rows e =
      isEventProcessedAux e.id (generateFingerprint e) rows 1 := rfl
  by_cases hp : (isEventProcessed true rows e).processed = true
  · -- already fully processed: the ledger is untouched
    have hmark : orchestratorMark true now e phase d rows = rows := by
      simp only [orchestratorMark, hp, if_true]
    have hnu : (isEventProcessed true rows e).needsUpdate = false := by
      rw [hstAux] at hp ⊢
      exact isEventProcessedAux_processed_not_needsUpdate _ _ _ _ hp
    refine ⟨by rw [hmark]; exact hu, ?_, ?_, ?_⟩
    · intro h
      rw [hnu] at h
      exact absurd h (by simp)
    · intro h
      have := isEventProcessedAux_of_not_mem e.id (generateFingerprint e)
        rows 1 h
      rw [hstAux, this] at hp
      exact absurd hp (by simp)
    · intro _
      rw [hmark]
  · have hp' : (isEventProcessed true rows e).processed = false := by
      simpa using hp
    by_cases hn : (isEventProcessed true rows e).needsUpdate = true
    · -- stale row: overwrite in place
      obtain ⟨j, hj, hidx, hid, _⟩ :=
        isEventProcessedAux_needsUpdate e.id (generateFingerprint e)
          rows 1 (hstAux ▸ hn)
      have hidx' : (isEventProcessed true rows e).rowIndex =
          (j : Int) + 2 := by
        rw [hstAux, hidx]; ring
      have hpos : ((j : Int) + 2) > 0 := by positivity
      have htoNat : (((j : Int) + 2) - 2).toNat = j := by
        simp
      have hmark : orchestratorMark true now e phase d rows =
          rows.set j (buildRowData e phase d now) := by
        simp only [orchestratorMark, hp', Bool.false_eq_true, if_false,
          hn, if_true, hidx', markEventProcessed, hpos, htoNat]
      have hlen : (orchestratorMark true now e phase d rows).length =
          rows.length := by
        rw [hmark, List.length_set]
      refine ⟨?_, ?_, ?_, ?_⟩
      · show ((orchestratorMark true now e phase d rows).map
          (fun r => r.eventId)).Nodup
        rw [hmark, map_eventId_set rows j hj _ (by
          show (buildRowData e phase d now).eventId = _
          rw [hid]; rfl)]
        exact hu
      · intro _
        exact ⟨j, hj, hid, hmark, hlen⟩
      · intro h
        have := isEventProcessedAux_of_not_mem e.id
          (generateFingerprint e) rows 1 h
        rw [hstAux, this] at hn
        exact absurd hn (by simp)
      · intro _
        exact hlen
    · -- no row for this event id: append
      have hn' : (isEventProcessed true rows e).needsUpdate = false := by
        simpa using hn
      have hnomem := isEventProcessedAux_not_mem_of e.id
        (generateFingerprint e) rows 1 (hstAux ▸ hp') (hstAux ▸ hn')
      have hmark : orchestratorMark true now e phase d rows =
          rows ++ [buildRowData e phase d now] := by
        simp only [orchestratorMark, hp', Bool.false_eq_true, if_false,
          hn', markEventProcessed]
        norm_num
      refine ⟨?_, ?_, ?_, ?_⟩
      · show ((orchestratorMark true now e phase d rows).map
          (fun r => r.eventId)).Nodup
        rw [hmark, List.map_append, List.nodup_append]
        refine ⟨hu, by simp, ?_⟩
        intro a ha hb
        simp only [List.map_cons, List.map_nil, List.mem_singleton] at hb
        obtain ⟨r, hr, hre⟩ := List.mem_map.mp ha
        subst hb
        have : (buildRowData e phase d now).eventId = e.id := rfl
        rw [this] at hre
        exact hnomem r hr hre
      · intro h
        rw [hn'] at h
        exact absurd h (by simp)
      · intro _
        exact hmark
      · intro ⟨r, hr, hre⟩
        exact absurd hre (hnomem r hr)

/-- Witness for C5: a one-row ledger whose row is overwritten in place
by a staleness-triggered reprocess at a concrete event. -/
theorem ledger_upsert_unique_witness :
    uniqueIds
      [{ eventId := "e1", fingerprint := "stale", phase := "Phase 1",
         leaderName := "L", company := "C", eventDate := some 0,
         processedAt := 0, lastUpdated := 0, email := "l@c.com",
         buildFileId := "b", leaderFolderId := "f" }] ∧
    uniqueIds (orchestratorMark true 9
      { id := "e1", title := "t", description := "", location := "loc",
        startTime := 0, endTime := 1 } "Phase 1"
      { fullName := "L", companyName := "C", email := "l@c.com",
        buildFileId := "b", leaderFolderId := "f" }
      [{ eventId := "e1", fingerprint := "stale", phase := "Phase 1",
         leaderName := "L", company := "C", eventDate := some 0,
         processedAt := 0, lastUpdated := 0, email := "l@c.com",
         buildFileId := "b", leaderFolderId := "f" }]) := by
  refine ⟨by decide, ?_⟩
  exact (ledger_upsert_unique
    [{ eventId := "e1", fingerprint := "stale", phase := "Phase 1",
       leaderName := "L", company := "C", eventDate := some 0,
       processedAt := 0, lastUpdated := 0, email := "l@c.com",
       buildFileId := "b", leaderFolderId := "f" }]
    { id := "e1", title := "t", description := "", location := "loc",
      startTime := 0, endTime := 1 } "Phase 1"
    { fullName := "L", companyName := "C", email := "l@c.com",
      buildFileId := "b", leaderFolderId := "f" } 9 (by decide)).1

/-! ## C4 — `findByEmail` disambiguation -/

/-- Fixture row for the email-lookup theorems. -/
def fixtureRow (eid nm em bf : String) : LedgerRow :=
  { eventId := eid, fingerprint := "fp", phase := "Phase 1",
    leaderName := nm, company := "C", eventDate := some 0,
    processedAt := 0, lastUpdated := 0, email := em,
    buildFileId := bf, leaderFolderId := "lf" }

/-- C4 (counterexample): three rows share the email; the candidate set
in ledger order is `[id1 (Bob), id2 (Alice), id3 (Alice)]`; the hint
"Alice Smith" filters it to *two* candidates.  The claim says the
result is then the first candidate of the full match set (`id1`), but
`findByEmail` returns `id2` — the first of the filtered set
(`nameMatches[0]` in the source). -/
theorem findByEmail_counterexample :
    (collectEmailMatches (normalizeKey "boss@acme.com")
        [fixtureRow "1" "Bob Jones" "boss@acme.com" "id1",
         fixtureRow "2" "Alice Smith" "boss@acme.com" "id2",
         fixtureRow "3" "Alice Smith" "boss@acme.com" "id3"] 1).map
      (fun m => m.buildFileId) = ["id1", "id2", "id3"] ∧
    ((collectEmailMatches (normalizeKey "boss@acme.com")
        [fixtureRow "1" "Bob Jones" "boss@acme.com" "id1",
         fixtureRow "2" "Alice Smith" "boss@acme.com" "id2",
         fixtureRow "3" "Alice Smith" "boss@acme.com" "id3"] 1).filter
      (fun m => normalizeKey m.leaderName =
        normalizeKey "Alice Smith")).length = 2 ∧
    (findByEmail
        [fixtureRow "1" "Bob Jones" "boss@acme.com" "id1",
         fixtureRow "2" "Alice Smith" "boss@acme.com" "id2",
         fixtureRow "3" "Alice Smith" "boss@acme.com" "id3"]
        "boss@acme.com" (some "Alice Smith")).map
      (fun m => m.buildFileId) = some "id2" ∧
    ("id2" : String) ≠ "id1" := by
  refine ⟨by decide, by decide, by decide, by decide⟩

/-- C4 (amended): `findByEmail` collects, in ledger order, the rows
matching the email case-insensitively that carry a non-empty Build File
ID.  Zero candidates → `null`; exactly one → that one.  With more than
one candidate: no (or empty) name hint → the first candidate of the
full set; with a hint, if filtering by case-insensitive name leaves no
candidate the first of the full set is returned, and otherwise — one
*or several* left — the first of the **filtered** set is returned (the
claim's "first of the full match set" holds only for the empty-filter
fallback).  It never throws. -/
theorem findByEmail_disambiguation (rows : List LedgerRow)
    (email : String) (leaderName : Option String) (he : email ≠ "") :
    (collectEmailMatches (normalizeKey email) rows 1 = [] →
      findByEmail rows email leaderName = none) ∧
    (∀ m, collectEmailMatches (normalizeKey email) rows 1 = [m] →
      findByEmail rows email leaderName = some m) ∧
    (∀ m0 ms, collectEmailMatches (normalizeKey email) rows 1 = m0 :: ms →
      ms ≠ [] →
      (normalizedNameHint leaderName = none →
        findByEmail rows email leaderName = some m0) ∧
      (∀ nn, normalizedNameHint leaderName = some nn →
        ((m0 :: ms).filter
            (fun x => normalizeKey x.leaderName = nn) = [] →
          findByEmail rows email leaderName = some m0) ∧
        (∀ n ns, (m0 :: ms).filter
            (fun x => normalizeKey x.leaderName = nn) = n :: ns →
          findByEmail rows email leaderName = some n))) := by
  refine ⟨?_, ?_, ?_⟩
  · intro h
    simp only [findByEmail, if_neg he, h]
  · intro m h
    simp only [findByEmail, if_neg he, h]
  · intro m0 ms hcol hne
    cases ms with
    | nil => exact absurd rfl hne
    | cons m1 rest =>
      refine ⟨?_, ?_⟩
      · intro hnn
        simp only [findByEmail, if_neg he, hcol, hnn]
      · intro nn hnn
        refine ⟨?_, ?_⟩
        · intro hfil
          simp only [findByEmail, if_neg he, hcol, hnn, hfil]
        · intro n ns hfil
          cases ns with
          | nil => simp only [findByEmail, if_neg he, hcol, hnn, hfil]
          | cons n2 ns2 =>
            simp only [findByEmail, if_neg he, hcol, hnn, hfil]

/-- Witness for C4's amended theorem: two rows share the email, the
hint filters to exactly one, and that one is returned. -/
theorem findByEmail_disambiguation_witness :
    findByEmail
      [fixtureRow "1" "Bob Jones" "boss@acme.com" "id1",
       fixtureRow "2" "Alice Smith" "boss@acme.com" "id2"]
      "boss@acme.com" (some "Alice Smith") =
    some { rowIndex := 2, buildFileId := "id2", leaderFolderId := "lf",
           leaderName := "Alice Smith", company := "C" } := by
  have h := (findByEmail_disambiguation
    [fixtureRow "1" "Bob Jones" "boss@acme.com" "id1",
     fixtureRow "2" "Alice Smith" "boss@acme.com" "id2"]
    "boss@acme.com" (some "Alice Smith") (by decide)).2.2
    { rowIndex := 1, buildFileId := "id1", leaderFolderId := "lf",
      leaderName := "Bob Jones", company := "C" }
    [{ rowIndex := 2, buildFileId := "id2", leaderFolderId := "lf",
       leaderName := "Alice Smith", company := "C" }]
    (by decide) (by decide)
  exact (h.2 (normalizeKey "Alice Smith") (by decide)).2
    { rowIndex := 2, buildFileId := "id2", leaderFolderId := "lf",
      leaderName := "Alice Smith", company := "C" } [] (by decide)

/-! ## C6 — no second IDS link for an existing artifact -/

theorem find?_append_left_none {α : Type} (p : α → Bool)
    (l₁ l₂ : List α) (h : l₁.find? p = none) :
    (l₁ ++ l₂).find? p = l₂.find? p := by
  induction l₁ with
  | nil => rfl
  | cons a l ih =>
    by_cases hp : p a
    · rw [List.find?_cons_of_pos _ hp] at h
      exact absurd h (by simp)
    · rw [List.find?_cons_of_neg _ hp] at h
      rw [List.cons_append, List.find?_cons_of_neg _ hp]
      exact ih h

theorem updateFirst_append_no_match (p : BuildFile → Bool)
    (g : BuildFile → BuildFile) (l₁ l₂ : List BuildFile)
    (h : ∀ f ∈ l₁, ¬p f) :
    updateFirst p g (l₁ ++ l₂) = l₁ ++ updateFirst p g l₂ := by
  induction l₁ with
  | nil => rfl
  | cons a l ih =>
    have ha : ¬p a := h a (by simp)
    rw [List.cons_append, updateFirst, if_neg ha, List.cons_append,
      ih (fun f hf => h f (List.mem_cons_of_mem _ hf))]

/-- On a successful IDS call, `updateResponseLink` stores the login
code in Phase 1 row 8 and Phase 2 B8 and leaves every other field of
the artifact unchanged (the full URL aside, per the config toggle). -/
theorem updateResponseLink_ok (link : LinkResult) (cfg : Bool)
    (f : BuildFile) :
    ∃ res, updateResponseLink (.ok link) cfg f = .ok res ∧
      res.name = f.name ∧ res.id = f.id ∧
      res.phase1LoginCode = link.loginCode ∧
      res.phase2LoginCode = link.loginCode ∧
      res.phase1Date = f.phase1Date ∧ res.phase1Time = f.phase1Time ∧
      res.phase1Name = f.phase1Name ∧ res.phase1Zoom = f.phase1Zoom := by
  cases cfg <;>
    exact ⟨_, rfl, rfl, rfl, rfl, rfl, rfl, rfl, rfl, rfl⟩

theorem processLeaderBuildFile_existing (api : Except String LinkResult)
    (cfg : Bool) (newId : String) (d : EventData)
    (folder : List BuildFile) (f0 : BuildFile)
    (h : findFileInFolder folder
      (d.fullName ++ " - Strong Teams Build File") = some f0) :
    processLeaderBuildFile api cfg newId d folder =
      .ok { file := updatePhase1Settings f0 d
            folder := updateFirst
              (fun g => g.name = d.fullName ++
                " - Strong Teams Build File")
              (fun g => updatePhase1Settings g d) folder
            apiCalls := 0 } := by
  simp only [processLeaderBuildFile, h]

theorem processLeaderBuildFile_new (api : Except String LinkResult)
    (cfg : Bool) (newId : String) (d : EventData)
    (folder : List BuildFile)
    (h : findFileInFolder folder
      (d.fullName ++ " - Strong Teams Build File") = none) :
    processLeaderBuildFile api cfg newId d folder =
      match updateResponseLink api cfg
        (updatePhase1Settings
          (createNewBuildFile newId
            (d.fullName ++ " - Strong Teams Build File")) d) with
      | .error e => .error e
      | .ok f' =>
        .ok { file := f', folder := folder ++ [f'], apiCalls := 1 } := by
  simp only [processLeaderBuildFile, h]

/-- C6: an existing Build File is only ever updated through
`updatePhase1Settings` — no IDS API call is made (the result does not
depend on `api` and reports zero calls) and its stored login code is
untouched; consequently, starting from a leader folder with no Build
File for the leader, two sequential Phase 1 runs produce exactly one
Build File holding exactly the first run's login code, the API being
called only on the first (creating) run. -/
theorem phase1_no_relink (d : EventData) (cfg : Bool) :
    (∀ (api : Except String LinkResult) (newId : String)
      (folder : List BuildFile) (f0 : BuildFile),
      findFileInFolder folder
        (d.fullName ++ " - Strong Teams Build File") = some f0 →
      processLeaderBuildFile api cfg newId d folder =
        .ok { file := updatePhase1Settings f0 d
              folder := updateFirst
                (fun g => g.name = d.fullName ++
                  " - Strong Teams Build File")
                (fun g => updatePhase1Settings g d) folder
              apiCalls := 0 } ∧
      (updatePhase1Settings f0 d).phase1LoginCode =
        f0.phase1LoginCode) ∧
    (∀ (link : LinkResult) (id1 id2 : String)
      (api2 : Except String LinkResult) (folder : List BuildFile),
      (∀ f ∈ folder,
        f.name ≠ d.fullName ++ " - Strong Teams Build File") →
      ∃ r1 r2,
        processLeaderBuildFile (.ok link) cfg id1 d folder = .ok r1 ∧
        r1.apiCalls = 1 ∧
        r1.folder.countP (fun f => f.name = d.fullName ++
          " - Strong Teams Build File") = 1 ∧
        processLeaderBuildFile api2 cfg id2 d r1.folder = .ok r2 ∧
        r2.apiCalls = 0 ∧
        r2.folder.countP (fun f => f.name = d.fullName ++
          " - Strong Teams Build File") = 1 ∧
        ∀ f ∈ r2.folder,
          f.name = d.fullName ++ " - Strong Teams Build File" →
          f.phase1LoginCode = link.loginCode) := by
  constructor
  · intro api newId folder f0 h
    exact ⟨processLeaderBuildFile_existing api cfg newId d folder f0 h,
      rfl⟩
  · intro link id1 id2 api2 folder hnew
    have hfind : findFileInFolder folder
        (d.fullName ++ " - Strong Teams Build File") = none := by
      rw [findFileInFolder, List.find?_eq_none]
      intro f hf
      simpa using hnew f hf
    obtain ⟨f1, hup, hn, hid, hcode, hcode2, hd1, ht1, hn1, hz1⟩ :=
      updateResponseLink_ok link cfg
        (updatePhase1Settings
          (createNewBuildFile id1
            (d.fullName ++ " - Strong Teams Build File")) d)
    have hf1name : f1.name = d.fullName ++
        " - Strong Teams Build File" := by
      rw [hn]; rfl
    have hrun1 : processLeaderBuildFile (.ok link) cfg id1 d folder =
        .ok { file := f1, folder := folder ++ [f1], apiCalls := 1 } := by
      rw [processLeaderBuildFile_new _ _ _ _ _ hfind, hup]
    have hcount0 : folder.countP (fun f => f.name = d.fullName ++
        " - Strong Teams Build File") = 0 := by
      rw [List.countP_eq_zero]
      intro f hf
      simpa using hnew f hf
    have hcount1 : (folder ++ [f1]).countP
        (fun f => f.name = d.fullName ++
          " - Strong Teams Build File") = 1 := by
      rw [List.countP_append, hcount0]
      simp [hf1name]
    have hfind2 : findFileInFolder (folder ++ [f1])
        (d.fullName ++ " - Strong Teams Build File") = some f1 := by
      rw [findFileInFolder,
        find?_append_left_none _ _ _ hfind,
        List.find?_cons_of_pos _ (by simp [hf1name])]
    have hrun2 := processLeaderBuildFile_existing api2 cfg id2 d
      (folder ++ [f1]) f1 hfind2
    have hfold2 : updateFirst
        (fun g => g.name = d.fullName ++ " - Strong Teams Build File")
        (fun g => updatePhase1Settings g d) (folder ++ [f1]) =
        folder ++ [updatePhase1Settings f1 d] := by
      rw [updateFirst_append_no_match _ _ _ _
        (fun f hf => by simpa using hnew f hf)]
      rw [updateFirst, if_pos (by simpa using hf1name)]
    refine ⟨_, _, hrun1, rfl, hcount1, hrun2, rfl, ?_, ?_⟩
    · show (updateFirst _ _ (folder ++ [f1])).countP _ = 1
      rw [hfold2, List.countP_append, hcount0]
      have : (updatePhase1Settings f1 d).name = f1.name := rfl
      simp [this, hf1name]
    · show ∀ f ∈ updateFirst _ _ (folder ++ [f1]), _
      rw [hfold2]
      intro f hf hfn
      rcases List.mem_append.mp hf with hmem | hmem
      · exact absurd hfn (hnew f hmem)
      · have : f = updatePhase1Settings f1 d := by simpa using hmem
        subst this
        show (updatePhase1Settings f1 d).phase1LoginCode = _
        have hpres : (updatePhase1Settings f1 d).phase1LoginCode =
            f1.phase1LoginCode := rfl
        rw [hpres, hcode]

/-- Witness for C6: a concrete leader, empty folder, first run mints
login code "LC-1", second run (with a failing API value, which it never
consults) keeps it. -/
theorem phase1_no_relink_witness :
    ∃ r1 r2,
      processLeaderBuildFile
        (.ok { loginCode := "LC-1",
               responseLink := "https://assessment/LC-1" }) false "f1"
        { fullName := "April Welch", email := "aw@aprilwelch.com",
          companyName := "Aprilwelch", formattedDate := "D",
          formattedTime := "T", zoomLink := "z" } [] = .ok r1 ∧
      r1.apiCalls = 1 ∧
      r1.folder.countP (fun f => f.name = "April Welch" ++
        " - Strong Teams Build File") = 1 ∧
      processLeaderBuildFile (.error "down") false "f2"
        { fullName := "April Welch", email := "aw@aprilwelch.com",
          companyName := "Aprilwelch", formattedDate := "D",
          formattedTime := "T", zoomLink := "z" } r1.folder = .ok r2 ∧
      r2.apiCalls = 0 ∧
      r2.folder.countP (fun f => f.name = "April Welch" ++
        " - Strong Teams Build File") = 1 ∧
      ∀ f ∈ r2.folder,
        f.name = "April Welch" ++ " - Strong Teams Build File" →
        f.phase1LoginCode = "LC-1" := by
  exact (phase1_no_relink
    { fullName := "April Welch", email := "aw@aprilwelch.com",
      companyName := "Aprilwelch", formattedDate := "D",
      formattedTime := "T", zoomLink := "z" } false).2
    { loginCode := "LC-1", responseLink := "https://assessment/LC-1" }
    "f1" "f2" (.error "down") [] (by simp)

/-! ## C2 — a failed IDS call propagates and blocks ledger marking -/

/-- C2: when the IDS link API fails during a first-time Phase 1 run
(no Build File yet for the leader), the error propagates unswallowed
out of `updateResponseLink`, `processLeaderBuildFile` and
`processPhase1Event`, so the orchestrator's per-event handler catches
it after `markEventProcessed` was never reached: the tracking rows
after the step are exactly the rows before it (no row for the event is
added, and a pre-existing row is unchanged), leaving the event to be
retried by the next batch. -/
theorem link_failure_blocks_marking (msg : String) (cfg : Bool)
    (newId lfId : String) (now : Int) (e : CalendarEvent)
    (d : EventData) (rows : List LedgerRow) (folder : List BuildFile)
    (hfirst : findFileInFolder folder
      (d.fullName ++ " - Strong Teams Build File") = none) :
    (∀ f, updateResponseLink (.error msg) cfg f = .error msg) ∧
    processLeaderBuildFile (.error msg) cfg newId d folder =
      .error msg ∧
    processPhase1Event (.error msg) cfg newId lfId d folder =
      .error msg ∧
    (phase1Step true (.error msg) cfg newId lfId now e d rows
      folder).rows = rows := by
  have hresp : ∀ f, updateResponseLink (.error msg) cfg f = .error msg :=
    fun f => rfl
  have hplb : processLeaderBuildFile (.error msg) cfg newId d folder =
      .error msg := by
    rw [processLeaderBuildFile_new _ _ _ _ _ hfirst, hresp]
  have hppe : processPhase1Event (.error msg) cfg newId lfId d folder =
      .error msg := by
    simp only [processPhase1Event, hplb]
  refine ⟨hresp, hplb, hppe, ?_⟩
  by_cases hp : (isEventProcessed true rows e).processed = true
  · simp only [phase1Step, hp, if_true]
  · have hp' : (isEventProcessed true rows e).processed = false := by
      simpa using hp
    simp only [phase1Step, hp', Bool.false_eq_true, if_false, hppe]

/-- Witness for C2: concrete first-time event, one unrelated ledger
row; the step leaves the ledger exactly as it was. -/
theorem link_failure_blocks_marking_witness :
    (phase1Step true (.error "IDS API failure") false "nid" "lf" 7
      { id := "evt-new", title := "Phase 1", description := "",
        location := "z", startTime := 0, endTime := 1 }
      { fullName := "April Welch", email := "aw@aprilwelch.com",
        companyName := "Aprilwelch", formattedDate := "D",
        formattedTime := "T", zoomLink := "z" }
      [fixtureRow "other" "L" "l@c.com" "b"] []).rows =
    [fixtureRow "other" "L" "l@c.com" "b"] :=
  (link_failure_blocks_marking "IDS API failure" false "nid" "lf" 7
    { id := "evt-new", title := "Phase 1", description := "",
      location := "z", startTime := 0, endTime := 1 }
    { fullName := "April Welch", email := "aw@aprilwelch.com",
      companyName := "Aprilwelch", formattedDate := "D",
      formattedTime := "T", zoomLink := "z" }
    [fixtureRow "other" "L" "l@c.com" "b"] [] rfl).2.2.2

/-! ## C3 — the validation checkpoint is never wired in (code bug) -/

/-- The Phase 1 event, extracted data and pre-existing Build File
(missing its IDS login code) demonstrating the missing validation
checkpoint. -/
def c3ExistingFile : BuildFile :=
  { id := "bf1", name := "April Welch - Strong Teams Build File" }

def c3Event : CalendarEvent :=
  { id := "evt3", title := "Phase 1 - April", description := "",
    location := "https://zoom/x", startTime := 0, endTime := 1 }

def c3Data : EventData :=
  { fullName := "April Welch", email := "aw@aprilwelch.com",
    companyName := "Aprilwelch", formattedDate := "December 22, 2024",
    formattedTime := "2:00 PM EST", zoomLink := "https://zoom/x" }

/-- C3 (code bug): `BuildFileManager.validatePhase1Success` — the
"validation checkpoint" the spec requires before an event may be marked
processed — is defined in the source but never called on the Phase 1
path.  Concretely: for a leader whose Build File exists but has an
empty IDS login code, the orchestrator step succeeds and appends a
ledger row for the event (marking it processed, so it is never
retried), even though `validatePhase1Success` applied to that artifact
fails precisely because the login code is missing. -/
theorem phase1_marks_without_validation :
    (phase1Step true (.error "IDS API unavailable") false "newid" "lf" 5
      c3Event c3Data [] [c3ExistingFile]).outcome = .success ∧
    (phase1Step true (.error "IDS API unavailable") false "newid" "lf" 5
      c3Event c3Data [] [c3ExistingFile]).rows.countP
      (fun r => r.eventId = c3Event.id) = 1 ∧
    ∀ f ∈ (phase1Step true (.error "IDS API unavailable") false "newid"
      "lf" 5 c3Event c3Data [] [c3ExistingFile]).folder,
      validatePhase1Success f =
        .error
          "Phase 1 validation failed: IDS login code (Row 8) missing" := by
  refine ⟨by decide, by decide, ?_⟩
  intro f hf
  have hfolder : (phase1Step true (.error "IDS API unavailable") false
      "newid" "lf" 5 c3Event c3Data [] [c3ExistingFile]).folder =
      [updatePhase1Settings c3ExistingFile c3Data] := by rfl
  rw [hfolder] at hf
  have hfeq : f = updatePhase1Settings c3ExistingFile c3Data := by
    simpa using hf
  subst hfeq
  rfl

/-! ## C7 — Phase 2 two-tier lookup with structural fallback -/

theorem phase2ViaTracker_eq (rows : List LedgerRow)
    (filesById : List (String × BuildFile)) (d : EventData) :
    (match findByEmail rows d.email (some d.fullName) with
     | some tr =>
       if tr.buildFileId ≠ "" then
         getBuildFileById filesById tr.buildFileId
       else none
     | none => none) =
    (findByEmail rows d.email (some d.fullName)).bind
      (fun tr => getBuildFileById filesById tr.buildFileId) := by
  cases h : findByEmail rows d.email (some d.fullName) with
  | none => rfl
  | some tr =>
    by_cases hb : tr.buildFileId = ""
    · simp [hb, getBuildFileById]
    · simp [hb]

/-- C7: `processPhase2Event` resolves the Build File by the email index
first (direct fetch by the stored id), falls back to the structural
company-folder → leader-folder → named-file search when the index
yields nothing or the stored id is stale, raises the "Phase 1 may not
have been completed" error exactly when both paths fail, and applies
the same `updatePhase2Settings` to whichever file was resolved. -/
theorem phase2_two_tier_lookup (rows : List LedgerRow)
    (filesById : List (String × BuildFile))
    (companies : List CompanyFolder) (d : EventData) :
    (processPhase2Event rows filesById companies d =
        .error ("Build File not found for " ++ d.fullName ++ " (" ++
          d.email ++ "). Phase 1 may not have been completed yet.") ↔
      (findByEmail rows d.email (some d.fullName)).bind
          (fun tr => getBuildFileById filesById tr.buildFileId) =
        none ∧
      findBuildFileByFolderSearch companies d = none) ∧
    (∀ f, (findByEmail rows d.email (some d.fullName)).bind
        (fun tr => getBuildFileById filesById tr.buildFileId) =
        some f →
      processPhase2Event rows filesById companies d =
        .ok (updatePhase2Settings f d)) ∧
    ((findByEmail rows d.email (some d.fullName)).bind
        (fun tr => getBuildFileById filesById tr.buildFileId) = none →
      ∀ f, findBuildFileByFolderSearch companies d = some f →
      processPhase2Event rows filesById companies d =
        .ok (updatePhase2Settings f d)) := by
  have hvia := phase2ViaTracker_eq rows filesById d
  cases hbind : (findByEmail rows d.email (some d.fullName)).bind
      (fun tr => getBuildFileById filesById tr.buildFileId) with
  | some f =>
    have hres : processPhase2Event rows filesById companies d =
        .ok (updatePhase2Settings f d) := by
      simp only [processPhase2Event, hvia, hbind]
    refine ⟨?_, ?_, ?_⟩
    · rw [hres]
      constructor
      · intro hcon
        exact absurd hcon (by simp)
      · intro ⟨h1, _⟩
        exact absurd h1 (by simp)
    · intro f2 hf2
      rw [Option.some.injEq] at hf2
      rw [hres, hf2]
    · intro hcon
      exact absurd hcon (by simp)
  | none =>
    cases hfold : findBuildFileByFolderSearch companies d with
    | some f =>
      have hres : processPhase2Event rows filesById companies d =
          .ok (updatePhase2Settings f d) := by
        simp only [processPhase2Event, hvia, hbind, hfold]
      refine ⟨?_, ?_, ?_⟩
      · rw [hres]
        constructor
        · intro hcon
          exact absurd hcon (by simp)
        · intro ⟨_, h2⟩
          exact absurd h2 (by simp)
      · intro f2 hf2
        exact absurd hf2 (by simp)
      · intro _ f2 hf2
        rw [Option.some.injEq] at hf2
        rw [hres, hf2]
    | none =>
      have hres : processPhase2Event rows filesById companies d =
          .error ("Build File not found for " ++ d.fullName ++ " (" ++
            d.email ++ "). Phase 1 may not have been completed yet.") := by
        simp only [processPhase2Event, hvia, hbind, hfold]
      refine ⟨?_, ?_, ?_⟩
      · exact ⟨fun _ => ⟨rfl, rfl⟩, fun _ => hres⟩
      · intro f2 hf2
        exact absurd hf2 (by simp)
      · intro _ f2 hf2
        exact absurd hf2 (by simp)

/-- Witness for C7: empty ledger, empty Drive — both paths fail and the
step raises the Phase-1-incomplete error. -/
theorem phase2_two_tier_lookup_witness :
    processPhase2Event [] [] []
      { fullName := "April Welch", email := "aw@aprilwelch.com",
        companyName := "Aprilwelch", formattedDate := "D",
        formattedTime := "T", zoomLink := "z" } =
    .error ("Build File not found for April Welch (aw@aprilwelch.com). " ++
      "Phase 1 may not have been completed yet.") := by
  have h := (phase2_two_tier_lookup [] [] []
    { fullName := "April Welch", email := "aw@aprilwelch.com",
      companyName := "Aprilwelch", formattedDate := "D",
      formattedTime := "T", zoomLink := "z" }).1.mpr ⟨rfl, rfl⟩
  rw [h]
  rfl

/-! ## C10 — the company name is a function of the email domain -/

theorem extractEventData_ok_fields (e : CalendarEvent)
    (data : ExtractedData) (h : extractEventData e = .ok data) :
    data.email ≠ "" ∧
    data.companyName = getCompanyFromEmail data.email := by
  simp only [extractEventData] at h
  split at h
  · exact absurd h (by simp)
  · rename_i hcond
    push_neg at hcond
    injection h with h4
    subst h4
    exact ⟨hcond.2.2, rfl⟩

/-- C10: for every event accepted by `extractEventData`, the
`companyName` field is `formatDomainAsCompanyName` applied to the
domain of the extracted email (the part after `'@'`: before its first
dot, split at dashes, underscores and camel-case boundaries, each word
capitalized) — so, given the email, no other event text influences it,
and any two accepted events whose emails carry the same domain receive
the identical company name (and hence the same company folder name). -/
theorem companyName_from_email_domain (e : CalendarEvent)
    (data : ExtractedData) (h : extractEventData e = .ok data) :
    data.companyName =
      formatDomainAsCompanyName (jsEmailDomain data.email) ∧
    (∀ (e2 : CalendarEvent) (data2 : ExtractedData),
      extractEventData e2 = .ok data2 →
      jsEmailDomain data.email = jsEmailDomain data2.email →
      data.companyName = data2.companyName) := by
  obtain ⟨hne, hcn⟩ := extractEventData_ok_fields e data h
  have hmain : data.companyName =
      formatDomainAsCompanyName (jsEmailDomain data.email) := by
    rw [hcn]
    simp only [getCompanyFromEmail, if_neg hne]
  refine ⟨hmain, ?_⟩
  intro e2 data2 h2 hdom
  obtain ⟨hne2, hcn2⟩ := extractEventData_ok_fields e2 data2 h2
  rw [hmain, hcn2]
  simp only [getCompanyFromEmail, if_neg hne2]
  rw [hdom]

/-- Witness for C10: a concrete booking-note description is accepted by
the full extraction pipeline and its company name is exactly the
formatted email domain. -/
theorem companyName_from_email_domain_witness :
    extractEventData
      { id := "x", title := "Phase 1",
        description :=
          "First name: April\nLast name: Welch\nEmail: aw@aprilwelch.com\n",
        location := "https://zoom/x", startTime := 100, endTime := 200 } =
      .ok { eventId := "x", eventTitle := "Phase 1", startDate := 100,
            firstName := "April", lastName := "Welch",
            email := "aw@aprilwelch.com", phoneNumber := "",
            zoomLink := "https://zoom/x", formattedDate := "D100",
            formattedTime := "T100", fullName := "April Welch",
            companyName := "Aprilwelch" } ∧
    ({ eventId := "x", eventTitle := "Phase 1", startDate := 100,
       firstName := "April", lastName := "Welch",
       email := "aw@aprilwelch.com", phoneNumber := "",
       zoomLink := "https://zoom/x", formattedDate := "D100",
       formattedTime := "T100", fullName := "April Welch",
       companyName := "Aprilwelch" } : ExtractedData).companyName =
      formatDomainAsCompanyName
        (jsEmailDomain ("aw@aprilwelch.com" : String)) := by
  constructor
  · rfl
  · exact (companyName_from_email_domain
      { id := "x", title := "Phase 1",
        description :=
          "First name: April\nLast name: Welch\nEmail: aw@aprilwelch.com\n",
        location := "https://zoom/x", startTime := 100, endTime := 200 }
      { eventId := "x", eventTitle := "Phase 1", startDate := 100,
        firstName := "April", lastName := "Welch",
        email := "aw@aprilwelch.com", phoneNumber := "",
        zoomLink := "https://zoom/x", formattedDate := "D100",
        formattedTime := "T100", fullName := "April Welch",
        companyName := "Aprilwelch" } (by rfl)).1

end StrongTeams
